import Mathlib

/-!
Verification of the pooling/admission-control core of the LLM platform backend.

Shallow embedding of:
* `backend/services/model_pool.py` (`ModelInstance`, `ModelPool`, `ModelPoolManager`)
* `backend/services/optimized_llm_service.py` (`OptimizedModelInstance`,
  `OptimizedModelPool`, `OptimizedLLMService`)
* `backend/services/concurrency_manager.py` (`ConcurrencyManager`)
* `backend/services/llm_service.py` (`LLMService`)

Modelling conventions:
* Wall-clock time is a discrete logical clock counted in tenths of a second
  (the polling interval of the Python code is `time.sleep(0.1)`); timestamps
  handed to operations are natural numbers.
* The Python `Queue` of idle instances is a FIFO list of instance ids;
  instance identity (Python object identity) is an explicit id.
* The opaque model handle and the actual inference computation are out of
  scope (black boxes per the spec); loader success/failure and inference
  success/failure enter the model as explicit parameters.
-/

namespace LLMPlatform

/-- Embeds `ModelInstance` of `model_pool.py` (the opaque `model` handle is dropped;
`model_path` is carried by the containing pool). Times are logical seconds. -/
structure MPInstance where
  config_hash : String
  created_at : Nat
  last_used : Nat
  usage_count : Nat
  is_busy : Bool
deriving Repr, DecidableEq

/-- State of one `ModelPool`: the `instances` list (tagged with ids standing
for Python object identity), the FIFO `available_queue` of idle-instance ids
(head = next `get_nowait`), the id supply, and the two counters. -/
structure PoolState where
  instances : List (Nat × MPInstance)
  availableQueue : List Nat
  nextId : Nat
  totalRequests : Nat
  cacheHits : Nat
deriving Repr, DecidableEq

/-- A fresh `ModelPool` (empty instance list and queue, zero counters). -/
def initPool : PoolState :=
  { instances := [], availableQueue := [], nextId := 0,
    totalRequests := 0, cacheHits := 0 }

/-- Embeds `ModelInstance.mark_used`: refresh `last_used`, bump `usage_count`. -/
def markUsed (now : Nat) (inst : MPInstance) : MPInstance :=
  { inst with last_used := now, usage_count := inst.usage_count + 1 }

/-- Instance as created inside `ModelPool.get_instance` (`is_busy=True`,
`usage_count` left at its default 0). -/
def newInstance (cfg : String) (now : Nat) : MPInstance :=
  { config_hash := cfg, created_at := now, last_used := now,
    usage_count := 0, is_busy := true }

/-- Look an instance up by id in a pool's instance list. -/
def findInst (s : PoolState) (id : Nat) : Option MPInstance :=
  (s.instances.find? (fun p => p.1 == id)).map Prod.snd

/-- Phase one of one iteration of the `while` loop of
`ModelPool.get_instance`: try `available_queue.get_nowait()`; on a
config-hash match of a non-busy instance mark it busy/used, count a cache
hit and return it; on a mismatch (or a busy/stale entry) put it back.
`Sum.inl` = the call returns, `Sum.inr` = fall through to phase two. -/
def poolPop (cfg : String) (now : Nat) (s : PoolState) :
    ((Option Nat) × PoolState) ⊕ PoolState :=
  match s.availableQueue with
  | [] => Sum.inr s
  | id :: rest =>
    match s.instances.find? (fun p => p.1 == id) with
    | some p =>
      if p.2.config_hash == cfg && !p.2.is_busy then
        Sum.inl (some id,
          { s with
            availableQueue := rest,
            instances := s.instances.map (fun q =>
              if q.1 == id then (q.1, { markUsed now q.2 with is_busy := true }) else q),
            cacheHits := s.cacheHits + 1,
            totalRequests := s.totalRequests + 1 })
      else
        Sum.inr { s with availableQueue := rest ++ [id] }
    | none => Sum.inr { s with availableQueue := rest ++ [id] }

/-- Phase two of the loop body: when the queue yielded nothing reusable,
create a new instance if under the cap (`createOk` = black-box loader did
not raise; on a raise the call returns `None` at once). -/
def poolCreate (M : Nat) (cfg : String) (createOk : Bool) (now : Nat)
    (s1 : PoolState) : ((Option Nat) × PoolState) ⊕ PoolState :=
  if s1.instances.length < M then
    if createOk then
      Sum.inl (some s1.nextId,
        { s1 with
          instances := s1.instances ++ [(s1.nextId, newInstance cfg now)],
          nextId := s1.nextId + 1,
          totalRequests := s1.totalRequests + 1 })
    else
      Sum.inl (none, s1)
  else Sum.inr s1

/-- The full loop body: queue pop phase, then creation phase. -/
def poolStep (M : Nat) (cfg : String) (createOk : Bool) (now : Nat)
    (s : PoolState) : ((Option Nat) × PoolState) ⊕ PoolState :=
  match poolPop cfg now s with
  | Sum.inl r => Sum.inl r
  | Sum.inr s1 => poolCreate M cfg createOk now s1

/-- The bounded polling loop of `ModelPool.get_instance`. The fuel is the
number of loop iterations admitted by `while time.time() - start_time <
timeout` under the logical clock (one iteration per tenth of a second).
Returns the result, the final pool state, and the elapsed time in tenths of
a second (number of completed `time.sleep(0.1)` calls before returning). -/
def poolLoop (M : Nat) (cfg : String) (createOk : Bool) (now : Nat) :
    Nat → PoolState → (Option Nat) × PoolState × Nat
  | 0, s => (none, s, 0)
  | fuel + 1, s =>
    match poolStep M cfg createOk now s with
    | Sum.inl (r, s') => (r, s', 0)
    | Sum.inr s' =>
      let out := poolLoop M cfg createOk now fuel s'
      (out.1, out.2.1, out.2.2 + 1)

/-- Embeds `ModelPool.get_instance(config_hash, timeout)`. `timeout` is the integer
second count of the Python signature; the loop head admits iteration `k`
iff `k * 0.1 < timeout`, i.e. there are `(10 * timeout).toNat` iterations. -/
def get_instance (M : Nat) (cfg : String) (createOk : Bool) (now : Nat)
    (timeout : Int) (s : PoolState) : (Option Nat) × PoolState × Nat :=
  poolLoop M cfg createOk now (10 * timeout).toNat s

/-- Embeds `ModelPool.return_instance`: clear the busy flag and put the instance
back on the available queue. -/
def return_instance (s : PoolState) (id : Nat) : PoolState :=
  { s with
    instances := s.instances.map (fun p =>
      if p.1 == id then (p.1, { p.2 with is_busy := false }) else p),
    availableQueue := s.availableQueue ++ [id] }

/-- The idleness test of `ModelPool.cleanup_idle_instances`: not busy and
`(current_time - inst.last_used).seconds > max_idle_time` (Python
`timedelta.seconds` is the total seconds modulo one day). -/
def idleExpired (maxIdle now : Nat) (inst : MPInstance) : Bool :=
  !inst.is_busy && decide (maxIdle < (now - inst.last_used) % 86400)

/-- Embeds `ModelPool.cleanup_idle_instances`: drop expired-idle instances from the
instance list and from the available queue (the queue rebuild keeps every
queued object that is not one of the evicted instances). -/
def cleanup_idle_instances (maxIdle now : Nat) (s : PoolState) : PoolState :=
  { s with
    instances := s.instances.filter (fun p => !(idleExpired maxIdle now p.2)),
    availableQueue := s.availableQueue.filter (fun id =>
      match s.instances.find? (fun p => p.1 == id) with
      | some p => !(idleExpired maxIdle now p.2)
      | none => true) }

/-- The operations a client can run against one `ModelPool`. -/
inductive PoolOp
  | get (cfg : String) (createOk : Bool) (now : Nat) (timeout : Int)
  | ret (id : Nat)
  | cleanup (now : Nat)
deriving Repr

/-- Apply one operation to a pool configured with cap `M` and idle threshold
`maxIdle`. -/
def applyPoolOp (M maxIdle : Nat) : PoolOp → PoolState → PoolState
  | .get cfg ok now t, s => (get_instance M cfg ok now t s).2.1
  | .ret id, s => return_instance s id
  | .cleanup now, s => cleanup_idle_instances maxIdle now s

/-- Run a sequence of operations from a state. -/
def runPool (M maxIdle : Nat) (ops : List PoolOp) (s : PoolState) : PoolState :=
  ops.foldl (fun s op => applyPoolOp M maxIdle op s) s

/-! ## ModelPoolManager (`model_pool.py`) -/

/-- A fresh, empty pool as a manager lazily creates one. -/
def ManagerState := List (String × PoolState)

/-- The pool the manager holds for `path` (a fresh pool if none yet, as
`get_model_instance` lazily creates it). -/
def poolFor (mgr : List (String × PoolState)) (path : String) : PoolState :=
  ((mgr.find? (fun p => p.1 == path)).map Prod.snd).getD initPool

/-- Store `ps` as the pool for `path` (update in place if present, else the
lazy creation appends the new pool). -/
def setPool (mgr : List (String × PoolState)) (path : String) (ps : PoolState) :
    List (String × PoolState) :=
  if (mgr.find? (fun p => p.1 == path)).isSome then
    mgr.map (fun p => if p.1 == path then (p.1, ps) else p)
  else mgr ++ [(path, ps)]

/-- Embeds `ModelPoolManager.get_model_instance`: resolve (lazily creating) the pool
for `path` and delegate to `ModelPool.get_instance`. `cfg` is the config
hash the manager computes from the sorted kwargs. -/
def get_model_instance (M : Nat) (path cfg : String) (createOk : Bool)
    (now : Nat) (timeout : Int) (mgr : List (String × PoolState)) :
    (Option Nat) × List (String × PoolState) :=
  let out := get_instance M cfg createOk now timeout (poolFor mgr path)
  (out.1, setPool mgr path out.2.1)

/-- Embeds `ModelPoolManager.return_model_instance`: return to the pool of the
instance's `model_path` when that pool exists, else do nothing. -/
def return_model_instance (mgr : List (String × PoolState)) (path : String)
    (id : Nat) : List (String × PoolState) :=
  if (mgr.find? (fun p => p.1 == path)).isSome then
    mgr.map (fun p => if p.1 == path then (p.1, return_instance p.2 id) else p)
  else mgr

/-- Embeds `ModelPoolManager.clear_all_pools`: `self.pools.clear()`. -/
def clear_all_pools (_mgr : List (String × PoolState)) :
    List (String × PoolState) := []

/-! ## OptimizedModelPool (`optimized_llm_service.py`) -/

/-- Embeds `OptimizedModelInstance` (opaque `Llama` handle dropped). `last_used`
is the logical timestamp of construction or last use. -/
structure OptInstance where
  usage_count : Nat
  last_used : Nat
deriving Repr, DecidableEq

/-- State of `OptimizedModelPool`: the `models` dict as an association list
in insertion order (Python dicts iterate in insertion order). -/
structure OptState where
  models : List (String × OptInstance)
deriving Repr, DecidableEq

/-- A fresh `OptimizedModelPool`. -/
def initOpt : OptState := { models := [] }

/-- The path `_evict_lru_model` selects:
`min(self.models.keys(), key=lambda path: self.models[path].last_used)` —
the first entry (in insertion order) attaining the minimal `last_used`
(Python `min` keeps the earlier item on ties). `none` iff the dict is empty. -/
def lruEntry (s : OptState) : Option (String × OptInstance) :=
  match s.models with
  | [] => none
  | h :: t =>
    some (t.foldl (fun acc p => if p.2.last_used < acc.2.last_used then p else acc) h)

/-- Embeds `OptimizedModelPool._evict_lru_model`: delete the LRU path (no-op on an
empty dict). -/
def evict_lru_model (s : OptState) : OptState :=
  match lruEntry s with
  | none => s
  | some lru => { models := s.models.filter (fun p => !(p.1 == lru.1)) }

/-- Embeds `OptimizedModelPool.get_or_load_model`: return the resident instance
after `update_usage` if present; otherwise evict the LRU entry when at
capacity and load the new model. `loadOk` is the outcome of
`_create_optimized_model` (on a loader exception the error propagates after
the eviction already happened, and nothing is inserted). The first component
records whether an instance was returned. -/
def get_or_load_model (K : Nat) (path : String) (loadOk : Bool) (now : Nat)
    (s : OptState) : Option Unit × OptState :=
  match s.models.find? (fun p => p.1 == path) with
  | some _ =>
    (some (), { models := s.models.map (fun p =>
        if p.1 == path then
          (p.1, { p.2 with usage_count := p.2.usage_count + 1, last_used := now })
        else p) })
  | none =>
    let s1 := if K ≤ s.models.length then evict_lru_model s else s
    if loadOk then
      (some (), { models := s1.models ++ [(path, ⟨0, now⟩)] })
    else (none, s1)

/-- Embeds `OptimizedModelPool.clear_all`: `self.models.clear()`. -/
def clear_all (_s : OptState) : OptState := { models := [] }

/-- Client operations on one `OptimizedModelPool`. -/
inductive OptOp
  | load (path : String) (loadOk : Bool) (now : Nat)
  | clearAll
deriving Repr

/-- Apply one operation to a cache capped at `K` models. -/
def applyOptOp (K : Nat) : OptOp → OptState → OptState
  | .load path ok now, s => (get_or_load_model K path ok now s).2
  | .clearAll, s => clear_all s

/-- Run a sequence of operations from a state. -/
def runOpt (K : Nat) (ops : List OptOp) (s : OptState) : OptState :=
  ops.foldl (fun s op => applyOptOp K op s) s

/-! ## Model-creation fallback of `OptimizedModelPool._create_optimized_model` -/

/-- The keyword arguments `_create_optimized_model` passes to `Llama`
(besides `model_path`). -/
structure LlamaParams where
  n_gpu_layers : Int
  n_ctx : Nat
  n_batch : Nat
  n_threads : Nat
  verbose : Bool
  use_mmap : Bool
  use_mlock : Bool
  f16_kv : Bool
  logits_all : Bool
deriving Repr, DecidableEq

/-- The caller-supplied `**params` overriding the size-tiered defaults
(`{**default_params, **params}`): each key optionally present. -/
structure LlamaOverrides where
  n_gpu_layers : Option Int := none
  n_ctx : Option Nat := none
  n_batch : Option Nat := none
  n_threads : Option Nat := none
  verbose : Option Bool := none
  use_mmap : Option Bool := none
  use_mlock : Option Bool := none
  f16_kv : Option Bool := none
  logits_all : Option Bool := none
deriving Repr

/-- Embeds `{**default_params, **params}`. -/
def mergeParams (d : LlamaParams) (o : LlamaOverrides) : LlamaParams :=
  { n_gpu_layers := o.n_gpu_layers.getD d.n_gpu_layers,
    n_ctx := o.n_ctx.getD d.n_ctx,
    n_batch := o.n_batch.getD d.n_batch,
    n_threads := o.n_threads.getD d.n_threads,
    verbose := o.verbose.getD d.verbose,
    use_mmap := o.use_mmap.getD d.use_mmap,
    use_mlock := o.use_mlock.getD d.use_mlock,
    f16_kv := o.f16_kv.getD d.f16_kv,
    logits_all := o.logits_all.getD d.logits_all }

/-- The size-tiered `default_params` of `_create_optimized_model`;
`fileSizeBytes` is `os.path.getsize(model_path)`, the `> 10` / `> 5`
gigabyte thresholds are against `file_size / 1024**3`. -/
def defaultParamsFor (fileSizeBytes : Nat) : LlamaParams :=
  if 10 * 1024 ^ 3 < fileSizeBytes then
    { n_gpu_layers := 0, n_ctx := 2048, n_batch := 256, n_threads := 6,
      verbose := false, use_mmap := true, use_mlock := false,
      f16_kv := true, logits_all := false }
  else if 5 * 1024 ^ 3 < fileSizeBytes then
    { n_gpu_layers := 10, n_ctx := 3072, n_batch := 384, n_threads := 8,
      verbose := false, use_mmap := true, use_mlock := true,
      f16_kv := true, logits_all := false }
  else
    { n_gpu_layers := -1, n_ctx := 4096, n_batch := 512, n_threads := 8,
      verbose := false, use_mmap := true, use_mlock := true,
      f16_kv := true, logits_all := false }

/-- The fixed `fallback_params` used after the first `Llama(...)` raises. -/
def fallback_params : LlamaParams :=
  { n_gpu_layers := 0, n_ctx := 1024, n_batch := 128, n_threads := 4,
    verbose := false, use_mmap := true, use_mlock := false,
    f16_kv := false, logits_all := false }

/-- Embeds `OptimizedModelPool._create_optimized_model`: first attempt with the
size-tiered defaults merged with the caller's params; on an exception retry
once with `fallback_params`; a second exception propagates. `loader` is the
black-box `Llama` constructor (`Except` = raises / returns a handle, the
handle modelled as `Nat`). Also returns the list of parameter sets actually
passed to the loader, in call order. -/
def create_optimized_model (loader : LlamaParams → Except String Nat)
    (fileSizeBytes : Nat) (o : LlamaOverrides) :
    Except String Nat × List LlamaParams :=
  let p1 := mergeParams (defaultParamsFor fileSizeBytes) o
  match loader p1 with
  | .ok h => (.ok h, [p1])
  | .error _ =>
    match loader fallback_params with
    | .ok h => (.ok h, [p1, fallback_params])
    | .error e => (.error e, [p1, fallback_params])

/-! ## LLMService (`llm_service.py`) -/

/-- Embeds `LLMService._generation_stats`. -/
structure GenStats where
  total_requests : Nat
  successful_requests : Nat
  failed_requests : Nat
  concurrent_requests : Nat
deriving Repr, DecidableEq

/-- The initial `_generation_stats` of `LLMService.__init__`. -/
def initGenStats : GenStats :=
  { total_requests := 0, successful_requests := 0,
    failed_requests := 0, concurrent_requests := 0 }

/-- Embeds `LLMService` state: the pool manager's `pools` map and the service's
generation statistics. -/
structure LLMServiceState where
  pools : List (String × PoolState)
  gen_stats : GenStats
deriving Repr, DecidableEq

/-- A fresh `LLMService`. -/
def initLLMService : LLMServiceState := { pools := [], gen_stats := initGenStats }

/-- The black-box outcome of `_execute_generation` run in the executor:
it returns a result or raises. -/
inductive ExecOutcome
  | success
  | failure
deriving Repr, DecidableEq

/-- Embeds `LLMService.generate_response`: bump `total_requests` and
`concurrent_requests`; acquire an instance from the pool manager (`None`
raises, caught by the outer `except` which bumps `failed_requests`); run the
generation (`exec` its black-box outcome); the inner `finally` always calls
`return_model_instance`; the outer `except`/success path updates the
success/failure counters and the outer `finally` decrements
`concurrent_requests`. Returns the result's `success` flag and the final
service state. -/
def LLMService.generate_response (M : Nat) (path cfg : String)
    (createOk : Bool) (now : Nat) (timeout : Int) (exec : ExecOutcome)
    (s : LLMServiceState) : Bool × LLMServiceState :=
  let stats0 := { s.gen_stats with
    total_requests := s.gen_stats.total_requests + 1,
    concurrent_requests := s.gen_stats.concurrent_requests + 1 }
  let acq := get_model_instance M path cfg createOk now timeout s.pools
  match acq.1 with
  | none =>
    (false, { pools := acq.2,
              gen_stats := { stats0 with
                failed_requests := stats0.failed_requests + 1,
                concurrent_requests := stats0.concurrent_requests - 1 } })
  | some id =>
    let pools2 := return_model_instance acq.2 path id
    match exec with
    | .success =>
      (true, { pools := pools2,
               gen_stats := { stats0 with
                 successful_requests := stats0.successful_requests + 1,
                 concurrent_requests := stats0.concurrent_requests - 1 } })
    | .failure =>
      (false, { pools := pools2,
                gen_stats := { stats0 with
                  failed_requests := stats0.failed_requests + 1,
                  concurrent_requests := stats0.concurrent_requests - 1 } })

/-- Embeds `LLMService.clear_cache`: `self.pool_manager.clear_all_pools()` —
`_generation_stats` is not touched. -/
def LLMService.clear_cache (s : LLMServiceState) : LLMServiceState :=
  { s with pools := clear_all_pools s.pools }

/-! ## OptimizedLLMService (`optimized_llm_service.py`) -/

/-- Embeds `OptimizedLLMService._generation_stats`. Average processing time is a
rational (the Python float arithmetic is out of numerical scope; only its
reset to `0.0` is claimed). -/
structure OptGenStats where
  total_requests : Nat
  successful_requests : Nat
  failed_requests : Nat
  concurrent_requests : Nat
  avg_processing_time : ℚ
  total_tokens_generated : Nat
deriving Repr, DecidableEq

/-- The initial `_generation_stats` of `OptimizedLLMService.__init__`
(also the dict `clear_cache` assigns). -/
def initOptGenStats : OptGenStats :=
  { total_requests := 0, successful_requests := 0, failed_requests := 0,
    concurrent_requests := 0, avg_processing_time := 0,
    total_tokens_generated := 0 }

/-- Embeds `OptimizedLLMService` state: the optimized model pool and the stats. -/
structure OptServiceState where
  model_pool : OptState
  gen_stats : OptGenStats
deriving Repr, DecidableEq

/-- Embeds `OptimizedLLMService.clear_cache`: `self.model_pool.clear_all()` and
reassign `_generation_stats` to the zero dict. -/
def OptimizedLLMService.clear_cache (s : OptServiceState) : OptServiceState :=
  { model_pool := clear_all s.model_pool, gen_stats := initOptGenStats }

/-! ## ConcurrencyManager (`concurrency_manager.py`) -/

/-- The `status` field of an `active_requests` entry (set by
`_process_task` / `execute_task`). -/
inductive TaskStatus
  | running
  | completed (result : String)
  | failed (error : String)
deriving Repr, DecidableEq

/-- Embeds `ConcurrencyManager` state: the bounded `request_queue` (tasks by id, in
FIFO order), the `active_requests` table, and `request_stats`. -/
structure CMState where
  queue : List String
  active : List (String × TaskStatus)
  total_requests : Nat
  completed_requests : Nat
  failed_requests : Nat
  queued_requests : Nat
  active_requests_count : Nat
deriving Repr, DecidableEq

/-- A fresh `ConcurrencyManager` (empty queue and table, zero stats). -/
def initCM : CMState :=
  { queue := [], active := [], total_requests := 0, completed_requests := 0,
    failed_requests := 0, queued_requests := 0, active_requests_count := 0 }

/-- Embeds `ConcurrencyManager.submit_request`: `request_queue.put` succeeds iff
the bounded queue (maxsize `2 * max_concurrent`) has room (with no consumer
draining it within the enqueue timeout); on success bump `total_requests`
and `queued_requests` and return the id; on `Full` bump `failed_requests`
and re-raise. -/
def submit_request (maxConcurrent : Nat) (id : String) (s : CMState) :
    Except String String × CMState :=
  if s.queue.length < 2 * maxConcurrent then
    (.ok id,
      { s with queue := s.queue ++ [id],
               total_requests := s.total_requests + 1,
               queued_requests := s.queued_requests + 1 })
  else
    (.error "queue full", { s with failed_requests := s.failed_requests + 1 })

/-- Embeds `ConcurrencyManager.get_request_status`: the entry's status string, or
`"not_found"` when the id is not in `active_requests`. -/
def get_request_status (id : String) (s : CMState) : String :=
  match s.active.find? (fun p => p.1 == id) with
  | some (_, .running) => "running"
  | some (_, .completed _) => "completed"
  | some (_, .failed _) => "failed"
  | none => "not_found"

/-- Outcome of `ConcurrencyManager.wait_for_result`: the delivered result,
the re-raised task failure, or the `TimeoutError` raised when the polling
window closes. `notFound` is the status `get_request_status` reports for an
unknown id; `wait_for_result` itself never produces it. -/
inductive WaitOutcome
  | result (r : String)
  | failedError (e : String)
  | timedOut
  | notFound
deriving Repr, DecidableEq

/-- The polling loop of `wait_for_result` (one fuel unit per
`await asyncio.sleep(0.1)` admission, as in `poolLoop`): a `completed` or
`failed` entry is read and deleted on first observation; a `running` or
absent id is polled again; on timeout the entry (if any) is deleted and
`TimeoutError` raised. -/
def waitLoop (id : String) : Nat → CMState → WaitOutcome × CMState
  | 0, s =>
    (.timedOut, { s with active := s.active.filter (fun p => !(p.1 == id)) })
  | fuel + 1, s =>
    match s.active.find? (fun p => p.1 == id) with
    | some (_, .completed r) =>
      (.result r, { s with active := s.active.filter (fun p => !(p.1 == id)) })
    | some (_, .failed e) =>
      (.failedError e, { s with active := s.active.filter (fun p => !(p.1 == id)) })
    | _ => waitLoop id fuel s

/-- Embeds `ConcurrencyManager.wait_for_result(request_id, timeout)`: poll every
0.1 s while the elapsed time is below `timeout` seconds. -/
def wait_for_result (id : String) (timeout : Int) (s : CMState) :
    WaitOutcome × CMState :=
  waitLoop id (10 * timeout).toNat s

/-! ## Specification predicates -/

/-- Two pool states agreeing on everything but the available queue (a loop
iteration that merely rotates the queue preserves this). -/
def SameCore (s s1 : PoolState) : Prop :=
  s1.instances = s.instances ∧ s1.nextId = s.nextId ∧
  s1.totalRequests = s.totalRequests ∧ s1.cacheHits = s.cacheHits

/-- Well-formedness of a pool state: ids were handed out by the id supply
and are pairwise distinct (true of every state the code can reach; Python
object identity gives it for free). -/
def PoolWF (s : PoolState) : Prop :=
  (∀ p ∈ s.instances, p.1 < s.nextId) ∧ (s.instances.map Prod.fst).Nodup

/-- A permanently saturated pool for fingerprint `cfg`: the instance count
is at the cap and every resident instance is busy or fingerprint-mismatched,
so no acquisition path can succeed. -/
def Saturated (M : Nat) (cfg : String) (s : PoolState) : Prop :=
  s.instances.length = M ∧
  ∀ p ∈ s.instances, p.2.is_busy = true ∨ p.2.config_hash ≠ cfg

/-- Outcome specification of one `ModelPool.get_instance` call from state
`s`: either no instance was handed out (timeout, or the loader raised) and
the instance list and counters are unchanged; or a matching non-busy
resident instance was reused (marked busy and used, both counters bumped);
or a fresh instance was created under the cap (only `total_requests`
bumped). -/
def GetSpec (M : Nat) (cfg : String) (now : Nat) (s : PoolState)
    (out : (Option Nat) × PoolState × Nat) : Prop :=
  (out.1 = none ∧ SameCore s out.2.1) ∨
  (∃ id inst, out.1 = some id ∧ (id, inst) ∈ s.instances ∧
    inst.config_hash = cfg ∧ inst.is_busy = false ∧
    out.2.1.instances = s.instances.map (fun q =>
      if q.1 == id then (q.1, { markUsed now q.2 with is_busy := true }) else q) ∧
    out.2.1.nextId = s.nextId ∧
    out.2.1.totalRequests = s.totalRequests + 1 ∧
    out.2.1.cacheHits = s.cacheHits + 1) ∨
  (out.1 = some s.nextId ∧ s.instances.length < M ∧
    out.2.1.instances = s.instances ++ [(s.nextId, newInstance cfg now)] ∧
    out.2.1.nextId = s.nextId + 1 ∧
    out.2.1.totalRequests = s.totalRequests + 1 ∧
    out.2.1.cacheHits = s.cacheHits)

end LLMPlatform

/-! ## Association-list helper lemmas -/

namespace LLMPlatform

section AssocLemmas

variable {κ α : Type} [BEq κ]

lemma find?_map_keyfix (g : κ × α → κ × α) (l : List (κ × α)) (k : κ)
    (hg : ∀ p, (g p).1 = p.1) :
    (l.map g).find? (fun p => p.1 == k)
      = (l.find? (fun p => p.1 == k)).map g := by
  induction l with
  | nil => rfl
  | cons h t ih =>
    by_cases hk : (h.1 == k) = true
    · have hgh : ((g h).1 == k) = true := by rw [hg]; exact hk
      simp [List.find?_cons, hk, hgh]
    · have hk' : (h.1 == k) = false := by simpa using hk
      have hgh : ((g h).1 == k) = false := by rw [hg]; exact hk'
      simp [List.find?_cons, hk', hgh, ih]

lemma find?_eq_of_mem_nodup [LawfulBEq κ] (l : List (κ × α)) (k : κ) (v : α)
    (hmem : (k, v) ∈ l) (hnd : (l.map Prod.fst).Nodup) :
    l.find? (fun p => p.1 == k) = some (k, v) := by
  induction l with
  | nil => simp at hmem
  | cons h t ih =>
    rcases List.mem_cons.mp hmem with heq | hmemt
    · subst heq; simp [List.find?_cons]
    · have hnd' : (h.1 :: t.map Prod.fst).Nodup := by simpa using hnd
      have hne : ¬(h.1 = k) := by
        intro hcontra
        have hk_in : k ∈ t.map Prod.fst :=
          List.mem_map.mpr ⟨(k, v), hmemt, rfl⟩
        exact (List.nodup_cons.mp hnd').1 (hcontra ▸ hk_in)
      have hbeq : (h.1 == k) = false := by simp [hne]
      rw [List.find?_cons_of_neg _ (by simp [hbeq])]
      exact ih hmemt (List.nodup_cons.mp hnd').2

lemma find?_append_of_fresh [LawfulBEq κ] (l : List (κ × α)) (k : κ) (v : α)
    (h : ∀ p ∈ l, ¬(p.1 = k)) :
    (l ++ [(k, v)]).find? (fun p => p.1 == k) = some (k, v) := by
  induction l with
  | nil => simp [List.find?_cons]
  | cons x t ih =>
    have hx : (x.1 == k) = false := by
      simpa using h x (List.mem_cons_self x t)
    rw [List.cons_append, List.find?_cons_of_neg _ (by simp [hx])]
    exact ih (fun p hp => h p (List.mem_cons_of_mem x hp))

lemma find?_filter_not_key (l : List (κ × α)) (k : κ) :
    (l.filter (fun p => !(p.1 == k))).find? (fun p => p.1 == k) = none := by
  induction l with
  | nil => rfl
  | cons h t ih =>
    by_cases hk : (h.1 == k) = true
    · simp [List.filter_cons, hk, ih]
    · simp only [Bool.not_eq_true] at hk
      simp [List.filter_cons, hk, List.find?_cons, ih]

end AssocLemmas

/-! ## ModelPool acquisition lemmas -/

lemma sameCore_refl (s : PoolState) : SameCore s s := ⟨rfl, rfl, rfl, rfl⟩

lemma poolPop_cases (cfg : String) (now : Nat) (s : PoolState) :
    (∃ s1, poolPop cfg now s = Sum.inr s1 ∧ SameCore s s1) ∨
    (∃ id inst s1, poolPop cfg now s = Sum.inl (some id, s1) ∧
      (id, inst) ∈ s.instances ∧ inst.config_hash = cfg ∧ inst.is_busy = false ∧
      s1.instances = s.instances.map (fun q =>
        if q.1 == id then (q.1, { markUsed now q.2 with is_busy := true }) else q) ∧
      s1.nextId = s.nextId ∧ s1.totalRequests = s.totalRequests + 1 ∧
      s1.cacheHits = s.cacheHits + 1) := by
  rcases hq : s.availableQueue with _ | ⟨id, rest⟩
  · exact Or.inl ⟨s, by simp only [poolPop, hq], sameCore_refl s⟩
  · rcases hf : s.instances.find? (fun p => p.1 == id) with _ | p
    · exact Or.inl ⟨{ s with availableQueue := rest ++ [id] },
        by simp only [poolPop, hq, hf], ⟨rfl, rfl, rfl, rfl⟩⟩
    · by_cases hc : (p.2.config_hash == cfg && !p.2.is_busy) = true
      · have hid : p.1 = id := by
          have := List.find?_some hf
          simpa using this
        have hmem : (id, p.2) ∈ s.instances := by
          have := List.mem_of_find?_eq_some hf
          rwa [show p = (id, p.2) by rw [← hid]] at this
        have hhash : p.2.config_hash = cfg := by
          have := (Bool.and_eq_true _ _).mp hc
          simpa using this.1
        have hbusy : p.2.is_busy = false := by
          have := (Bool.and_eq_true _ _).mp hc
          simpa using this.2
        refine Or.inr ⟨id, p.2,
          { s with
            availableQueue := rest,
            instances := s.instances.map (fun q =>
              if q.1 == id then (q.1, { markUsed now q.2 with is_busy := true }) else q),
            cacheHits := s.cacheHits + 1,
            totalRequests := s.totalRequests + 1 },
          ?_, hmem, hhash, hbusy, rfl, rfl, rfl, rfl⟩
        simp only [poolPop, hq, hf, if_pos hc]
      · exact Or.inl ⟨{ s with availableQueue := rest ++ [id] },
          by simp only [poolPop, hq, hf, if_neg hc], ⟨rfl, rfl, rfl, rfl⟩⟩

lemma poolCreate_cases (M : Nat) (cfg : String) (ok : Bool) (now : Nat)
    (s1 : PoolState) :
    (¬ s1.instances.length < M ∧ poolCreate M cfg ok now s1 = Sum.inr s1) ∨
    (s1.instances.length < M ∧ ok = false ∧
      poolCreate M cfg ok now s1 = Sum.inl (none, s1)) ∨
    (s1.instances.length < M ∧ ok = true ∧
      poolCreate M cfg ok now s1 = Sum.inl (some s1.nextId,
        { s1 with
          instances := s1.instances ++ [(s1.nextId, newInstance cfg now)],
          nextId := s1.nextId + 1,
          totalRequests := s1.totalRequests + 1 })) := by
  by_cases hlen : s1.instances.length < M
  · cases ok with
    | false => exact Or.inr (Or.inl ⟨hlen, rfl, by simp [poolCreate, hlen]⟩)
    | true => exact Or.inr (Or.inr ⟨hlen, rfl, by simp [poolCreate, hlen]⟩)
  · exact Or.inl ⟨hlen, by simp [poolCreate, hlen]⟩

lemma poolStep_cases (M : Nat) (cfg : String) (ok : Bool) (now : Nat)
    (s : PoolState) :
    (∃ s1, poolStep M cfg ok now s = Sum.inr s1 ∧ SameCore s s1) ∨
    (∃ s1, poolStep M cfg ok now s = Sum.inl (none, s1) ∧
      s.instances.length < M ∧ SameCore s s1) ∨
    (∃ id inst s1, poolStep M cfg ok now s = Sum.inl (some id, s1) ∧
      (id, inst) ∈ s.instances ∧ inst.config_hash = cfg ∧ inst.is_busy = false ∧
      s1.instances = s.instances.map (fun q =>
        if q.1 == id then (q.1, { markUsed now q.2 with is_busy := true }) else q) ∧
      s1.nextId = s.nextId ∧ s1.totalRequests = s.totalRequests + 1 ∧
      s1.cacheHits = s.cacheHits + 1) ∨
    (∃ s1, poolStep M cfg ok now s = Sum.inl (some s.nextId, s1) ∧
      s.instances.length < M ∧
      s1.instances = s.instances ++ [(s.nextId, newInstance cfg now)] ∧
      s1.nextId = s.nextId + 1 ∧ s1.totalRequests = s.totalRequests + 1 ∧
      s1.cacheHits = s.cacheHits) := by
  rcases poolPop_cases cfg now s with ⟨s1, hpop, hsc⟩ |
    ⟨id, inst, s1, hpop, hmem, hhash, hbusy, hinst, hnx, htr, hch⟩
  · obtain ⟨i1, q1, n1, t1, c1⟩ := s1
    obtain ⟨hi, hn, ht, hc⟩ := hsc
    dsimp only at hi hn ht hc
    subst hi; subst hn; subst ht; subst hc
    rcases poolCreate_cases M cfg ok now
        ⟨s.instances, q1, s.nextId, s.totalRequests, s.cacheHits⟩ with
      ⟨hlen, hcr⟩ | ⟨hlen, hok, hcr⟩ | ⟨hlen, hok, hcr⟩
    · exact Or.inl ⟨⟨s.instances, q1, s.nextId, s.totalRequests, s.cacheHits⟩,
        by simp only [poolStep, hpop, hcr], ⟨rfl, rfl, rfl, rfl⟩⟩
    · exact Or.inr (Or.inl ⟨⟨s.instances, q1, s.nextId, s.totalRequests, s.cacheHits⟩,
        by simp only [poolStep, hpop, hcr], hlen, ⟨rfl, rfl, rfl, rfl⟩⟩)
    · exact Or.inr (Or.inr (Or.inr
        ⟨⟨s.instances ++ [(s.nextId, newInstance cfg now)], q1, s.nextId + 1,
          s.totalRequests + 1, s.cacheHits⟩,
         by simp only [poolStep, hpop, hcr], hlen, rfl, rfl, rfl, rfl⟩))
  · exact Or.inr (Or.inr (Or.inl ⟨id, inst, s1,
      by simp only [poolStep, hpop], hmem, hhash, hbusy, hinst, hnx, htr, hch⟩))

lemma getSpec_of_sameCore {M : Nat} {cfg : String} {now : Nat}
    {s s1 : PoolState} {out : (Option Nat) × PoolState × Nat}
    (hsc : SameCore s s1) (h : GetSpec M cfg now s1 out) :
    GetSpec M cfg now s out := by
  obtain ⟨i1, q1, n1, t1, c1⟩ := s1
  obtain ⟨hi, hn, ht, hc⟩ := hsc
  dsimp only at hi hn ht hc
  subst hi; subst hn; subst ht; subst hc
  exact h

lemma poolLoop_spec (M : Nat) (cfg : String) (ok : Bool) (now : Nat) :
    ∀ (fuel : Nat) (s : PoolState),
      GetSpec M cfg now s (poolLoop M cfg ok now fuel s) := by
  intro fuel
  induction fuel with
  | zero => exact fun s => Or.inl ⟨rfl, sameCore_refl s⟩
  | succ n ih =>
    intro s
    rcases poolStep_cases M cfg ok now s with ⟨s1, heq, hsc⟩ |
      ⟨s1, heq, _, hsc⟩ |
      ⟨id, inst, s1, heq, hmem, hhash, hbusy, hinst, hnx, htr, hch⟩ |
      ⟨s1, heq, hlen, hinst, hnx, htr, hch⟩
    · have hspec := getSpec_of_sameCore hsc (ih s1)
      simpa only [poolLoop, heq] using hspec
    · simp only [poolLoop, heq]
      exact Or.inl ⟨rfl, hsc.1, hsc.2.1, hsc.2.2.1, hsc.2.2.2⟩
    · simp only [poolLoop, heq]
      exact Or.inr (Or.inl ⟨id, inst, rfl, hmem, hhash, hbusy, hinst, hnx, htr, hch⟩)
    · simp only [poolLoop, heq]
      exact Or.inr (Or.inr ⟨rfl, hlen, hinst, hnx, htr, hch⟩)

lemma get_instance_spec (M : Nat) (cfg : String) (ok : Bool) (now : Nat)
    (t : Int) (s : PoolState) :
    GetSpec M cfg now s (get_instance M cfg ok now t s) :=
  poolLoop_spec M cfg ok now _ s

lemma mem_keys_nodup_eq {κ α : Type} [BEq κ] [LawfulBEq κ]
    {l : List (κ × α)} {k : κ} {a b : α}
    (hnd : (l.map Prod.fst).Nodup) (ha : (k, a) ∈ l) (hb : (k, b) ∈ l) :
    a = b := by
  have h1 := find?_eq_of_mem_nodup l k a ha hnd
  have h2 := find?_eq_of_mem_nodup l k b hb hnd
  rw [h1] at h2
  simpa using h2

/-- Dichotomy for a successful acquisition from a well-formed pool: either a
matching idle instance was reused, or a fresh instance was created. -/
lemma get_instance_some_spec {M : Nat} {cfg : String} {ok : Bool} {now : Nat}
    {t : Int} {s : PoolState} {id : Nat}
    (hwf : PoolWF s) (hres : (get_instance M cfg ok now t s).1 = some id) :
    (∃ inst, (id, inst) ∈ s.instances ∧ inst.config_hash = cfg ∧
      inst.is_busy = false ∧
      (get_instance M cfg ok now t s).2.1.instances = s.instances.map (fun q =>
        if q.1 == id then (q.1, { markUsed now q.2 with is_busy := true }) else q) ∧
      (get_instance M cfg ok now t s).2.1.cacheHits = s.cacheHits + 1 ∧
      (get_instance M cfg ok now t s).2.1.totalRequests = s.totalRequests + 1) ∨
    (id = s.nextId ∧ (∀ inst, (id, inst) ∉ s.instances) ∧
      s.instances.length < M ∧
      (get_instance M cfg ok now t s).2.1.instances
        = s.instances ++ [(s.nextId, newInstance cfg now)] ∧
      (get_instance M cfg ok now t s).2.1.cacheHits = s.cacheHits ∧
      (get_instance M cfg ok now t s).2.1.totalRequests = s.totalRequests + 1) := by
  rcases get_instance_spec M cfg ok now t s with ⟨h1, _⟩ |
    ⟨id', inst, h1, hmem, hhash, hbusy, hinst, _, htr, hch⟩ |
    ⟨h1, hlen, hinst, _, htr, hch⟩
  · rw [hres] at h1; cases h1
  · rw [hres] at h1
    injection h1 with h
    subst h
    exact Or.inl ⟨inst, hmem, hhash, hbusy, hinst, hch, htr⟩
  · rw [hres] at h1
    injection h1 with h
    subst h
    refine Or.inr ⟨rfl, ?_, hlen, hinst, hch, htr⟩
    intro inst hmem
    exact absurd (hwf.1 _ hmem) (by simp)

/-! ## Saturation (`P4`) lemmas -/

lemma poolStep_saturated {M : Nat} {cfg : String} {ok : Bool} {now : Nat}
    {s : PoolState} (hsat : Saturated M cfg s) :
    ∃ s1, poolStep M cfg ok now s = Sum.inr s1 ∧ SameCore s s1 := by
  rcases poolStep_cases M cfg ok now s with ⟨s1, heq, hsc⟩ |
    ⟨s1, _, hlen, _⟩ |
    ⟨id, inst, s1, heq, hmem, hhash, hbusy, _⟩ | ⟨s1, heq, hlen, _⟩
  · exact ⟨s1, heq, hsc⟩
  · exact absurd hlen (by rw [hsat.1]; omega)
  · rcases hsat.2 _ hmem with hb | hh
    · rw [hbusy] at hb; cases hb
    · exact absurd hhash hh
  · exact absurd hlen (by rw [hsat.1]; omega)

lemma poolLoop_saturated (M : Nat) (cfg : String) (ok : Bool) (now : Nat) :
    ∀ (fuel : Nat) (s : PoolState), Saturated M cfg s →
      (poolLoop M cfg ok now fuel s).1 = none ∧
      (poolLoop M cfg ok now fuel s).2.2 = fuel := by
  intro fuel
  induction fuel with
  | zero => exact fun s _ => ⟨rfl, rfl⟩
  | succ n ih =>
    intro s hsat
    obtain ⟨s1, heq, hi, _, _, _⟩ := @poolStep_saturated M cfg ok now s hsat
    have hsat1 : Saturated M cfg s1 :=
      ⟨by rw [hi]; exact hsat.1, by rw [hi]; exact hsat.2⟩
    have hn := ih s1 hsat1
    simp only [poolLoop, heq]
    exact ⟨hn.1, by rw [hn.2]⟩

/-! ## Cap-invariant (`P2`) lemmas -/

lemma get_instance_length_le {M : Nat} {cfg : String} {ok : Bool} {now : Nat}
    {t : Int} {s : PoolState} (h : s.instances.length ≤ M) :
    (get_instance M cfg ok now t s).2.1.instances.length ≤ M := by
  rcases get_instance_spec M cfg ok now t s with ⟨_, hi, _, _, _⟩ |
    ⟨id, inst, _, _, _, _, hinst, _⟩ | ⟨_, hlen, hinst, _⟩
  · rw [hi]; exact h
  · rw [hinst, List.length_map]; exact h
  · rw [hinst, List.length_append]; simpa using hlen

lemma applyPoolOp_length_le (M maxIdle : Nat) (op : PoolOp) {s : PoolState}
    (h : s.instances.length ≤ M) :
    (applyPoolOp M maxIdle op s).instances.length ≤ M := by
  cases op with
  | get cfg ok now t => exact get_instance_length_le h
  | ret id => simpa [applyPoolOp, return_instance] using h
  | cleanup now =>
    refine le_trans ?_ h
    simpa [applyPoolOp, cleanup_idle_instances] using
      List.length_filter_le (fun p => !(idleExpired maxIdle now p.2)) s.instances

lemma runPool_length_le (M maxIdle : Nat) (ops : List PoolOp) :
    ∀ s : PoolState, s.instances.length ≤ M →
      (runPool M maxIdle ops s).instances.length ≤ M := by
  induction ops with
  | nil => exact fun s h => h
  | cons op rest ih =>
    intro s h
    have : runPool M maxIdle (op :: rest) s
        = runPool M maxIdle rest (applyPoolOp M maxIdle op s) := rfl
    rw [this]
    exact ih _ (applyPoolOp_length_le M maxIdle op h)

/-! ## LRU (`P3`) lemmas -/

lemma lruFold_le_init (t : List (String × OptInstance)) :
    ∀ h : String × OptInstance,
      (t.foldl (fun acc p => if p.2.last_used < acc.2.last_used then p else acc)
        h).2.last_used ≤ h.2.last_used := by
  induction t with
  | nil => exact fun h => le_refl _
  | cons x xs ih =>
    intro h
    simp only [List.foldl_cons]
    refine le_trans (ih _) ?_
    by_cases hx : x.2.last_used < h.2.last_used
    · rw [if_pos hx]; omega
    · rw [if_neg hx]

lemma lruFold_mem (t : List (String × OptInstance)) :
    ∀ h : String × OptInstance,
      t.foldl (fun acc p => if p.2.last_used < acc.2.last_used then p else acc) h
        ∈ h :: t := by
  induction t with
  | nil => intro h; simp
  | cons x xs ih =>
    intro h
    simp only [List.foldl_cons]
    rcases List.mem_cons.mp (ih (if x.2.last_used < h.2.last_used then x else h))
      with heq | hmem
    · rw [heq]
      by_cases hx : x.2.last_used < h.2.last_used
      · rw [if_pos hx]; exact List.mem_cons_of_mem _ (List.mem_cons_self _ _)
      · rw [if_neg hx]; exact List.mem_cons_self _ _
    · exact List.mem_cons_of_mem _ (List.mem_cons_of_mem _ hmem)

lemma lruFold_min (t : List (String × OptInstance)) :
    ∀ h q, q ∈ h :: t →
      (t.foldl (fun acc p => if p.2.last_used < acc.2.last_used then p else acc)
        h).2.last_used ≤ q.2.last_used := by
  induction t with
  | nil =>
    intro h q hq
    rcases List.mem_cons.mp hq with rfl | hq'
    · exact le_refl _
    · simp at hq'
  | cons x xs ih =>
    intro h q hq
    simp only [List.foldl_cons]
    rcases List.mem_cons.mp hq with rfl | hq'
    · refine le_trans (lruFold_le_init xs _) ?_
      by_cases hx : x.2.last_used < q.2.last_used
      · rw [if_pos hx]; omega
      · rw [if_neg hx]
    · rcases List.mem_cons.mp hq' with rfl | hq''
      · refine le_trans (lruFold_le_init xs _) ?_
        by_cases hx : q.2.last_used < h.2.last_used
        · rw [if_pos hx]
        · rw [if_neg hx]; omega
      · exact ih _ q (List.mem_cons_of_mem _ hq'')

lemma lruEntry_mem {s : OptState} {lru : String × OptInstance}
    (h : lruEntry s = some lru) : lru ∈ s.models := by
  rcases hm : s.models with _ | ⟨x, xs⟩
  · rw [lruEntry, hm] at h; cases h
  · rw [lruEntry, hm] at h
    injection h with h'
    rw [← h']
    exact lruFold_mem xs x

lemma lruEntry_min {s : OptState} {lru : String × OptInstance}
    (h : lruEntry s = some lru) :
    ∀ q ∈ s.models, lru.2.last_used ≤ q.2.last_used := by
  rcases hm : s.models with _ | ⟨x, xs⟩
  · intro q hq; simp at hq
  · rw [lruEntry, hm] at h
    injection h with h'
    intro q hq
    rw [← h']
    exact lruFold_min xs x q hq

lemma lruEntry_isSome_of_ne {s : OptState} (h : s.models ≠ []) :
    ∃ lru, lruEntry s = some lru := by
  rcases hm : s.models with _ | ⟨x, xs⟩
  · exact absurd hm h
  · exact ⟨_, by rw [lruEntry, hm]⟩

lemma evict_lru_length_lt {s : OptState} (h : s.models ≠ []) :
    (evict_lru_model s).models.length < s.models.length := by
  obtain ⟨lru, hlru⟩ := lruEntry_isSome_of_ne h
  have hmem := lruEntry_mem hlru
  simp only [evict_lru_model, hlru]
  exact List.length_filter_lt_length_iff_exists.mpr ⟨lru, hmem, by simp⟩

lemma get_or_load_model_absent {K : Nat} {path : String} {ok : Bool}
    {now : Nat} {s : OptState}
    (hf : s.models.find? (fun p => p.1 == path) = none) :
    (get_or_load_model K path ok now s).2
      = (if ok then
          ({ models := (if K ≤ s.models.length then evict_lru_model s
              else s).models ++ [(path, ⟨0, now⟩)] } : OptState)
        else (if K ≤ s.models.length then evict_lru_model s else s)) := by
  unfold get_or_load_model
  rw [hf]
  cases ok <;> rfl

lemma get_or_load_model_resident {K : Nat} {path : String} {ok : Bool}
    {now : Nat} {s : OptState} {p : String × OptInstance}
    (hf : s.models.find? (fun q => q.1 == path) = some p) :
    (get_or_load_model K path ok now s).2
      = { models := s.models.map (fun q =>
          if q.1 == path then
            (q.1, { q.2 with usage_count := q.2.usage_count + 1, last_used := now })
          else q) } := by
  unfold get_or_load_model
  rw [hf]

lemma get_or_load_length_le {K : Nat} {path : String} {ok : Bool} {now : Nat}
    {s : OptState} (hK : 1 ≤ K) (h : s.models.length ≤ K) :
    (get_or_load_model K path ok now s).2.models.length ≤ K := by
  cases hf : s.models.find? (fun p => p.1 == path) with
  | some p =>
    rw [get_or_load_model_resident hf]
    simpa using h
  | none =>
    rw [get_or_load_model_absent hf]
    by_cases hcap : K ≤ s.models.length
    · have hne : s.models ≠ [] := by
        intro hnil
        rw [hnil] at hcap
        simp at hcap
        omega
      have hlt := evict_lru_length_lt hne
      by_cases hok : ok = true
      · rw [if_pos hok, if_pos hcap]
        simp only [List.length_append, List.length_cons, List.length_nil]
        omega
      · rw [if_neg hok, if_pos hcap]
        omega
    · by_cases hok : ok = true
      · rw [if_pos hok, if_neg hcap]
        simp only [List.length_append, List.length_cons, List.length_nil]
        omega
      · rw [if_neg hok, if_neg hcap]
        omega

lemma applyOptOp_length_le (K : Nat) (op : OptOp) {s : OptState}
    (hK : 1 ≤ K) (h : s.models.length ≤ K) :
    (applyOptOp K op s).models.length ≤ K := by
  cases op with
  | load path ok now => exact get_or_load_length_le hK h
  | clearAll => simp [applyOptOp, clear_all]

lemma runOpt_length_le (K : Nat) (ops : List OptOp) (hK : 1 ≤ K) :
    ∀ s : OptState, s.models.length ≤ K →
      (runOpt K ops s).models.length ≤ K := by
  induction ops with
  | nil => exact fun s h => h
  | cons op rest ih =>
    intro s h
    have : runOpt K (op :: rest) s = runOpt K rest (applyOptOp K op s) := rfl
    rw [this]
    exact ih _ (applyOptOp_length_le K op hK h)

/-! ## ConcurrencyManager lemmas -/

lemma waitLoop_absent (id : String) :
    ∀ (fuel : Nat) (s : CMState),
      s.active.find? (fun p => p.1 == id) = none →
      (waitLoop id fuel s).1 = WaitOutcome.timedOut := by
  intro fuel
  induction fuel with
  | zero => intro s _; rfl
  | succ n ih =>
    intro s h
    simp only [waitLoop, h]
    exact ih s h

/-! ## ModelPoolManager lemmas -/

lemma find?_setPool_eq (mgr : List (String × PoolState)) (path : String)
    (ps : PoolState) :
    ∃ q : String × PoolState,
      (setPool mgr path ps).find? (fun p => p.1 == path) = some q ∧ q.2 = ps := by
  unfold setPool
  by_cases hs : (mgr.find? (fun p => p.1 == path)).isSome
  · rw [if_pos hs]
    obtain ⟨p, hp⟩ := Option.isSome_iff_exists.mp hs
    rw [find?_map_keyfix _ _ _ (fun q => by by_cases hq : (q.1 == path) = true <;>
      simp [hq]), hp]
    have hkey : p.1 = path := by
      have := List.find?_some hp
      simpa using this
    exact ⟨(p.1, ps), by simp [hkey], by simp [hkey]⟩
  · rw [if_neg hs]
    have hnone : mgr.find? (fun p => p.1 == path) = none :=
      Option.not_isSome_iff_eq_none.mp hs
    refine ⟨(path, ps), ?_, rfl⟩
    apply find?_append_of_fresh
    intro p hp hcontra
    have := List.find?_eq_none.mp hnone p hp
    simp [hcontra] at this

lemma poolFor_setPool (mgr : List (String × PoolState)) (path : String)
    (ps : PoolState) :
    poolFor (setPool mgr path ps) path = ps := by
  obtain ⟨q, hq, hq2⟩ := find?_setPool_eq mgr path ps
  rw [poolFor, hq]
  simpa using hq2

lemma poolFor_return_model_instance (mgr : List (String × PoolState))
    (path : String) (id : Nat)
    (hs : (mgr.find? (fun p => p.1 == path)).isSome = true) :
    poolFor (return_model_instance mgr path id) path
      = return_instance (poolFor mgr path) id := by
  unfold return_model_instance poolFor
  rw [if_pos hs, find?_map_keyfix _ _ _ (fun q => by
    by_cases hq : (q.1 == path) = true <;> simp [hq])]
  obtain ⟨p, hp⟩ := Option.isSome_iff_exists.mp hs
  have hkey : p.1 = path := by
    have := List.find?_some hp
    simpa using this
  rw [hp]
  simp [hkey]

lemma findInst_map_markBusy {now : Nat} {s P : PoolState} {id : Nat}
    {inst : MPInstance}
    (hnd : (s.instances.map Prod.fst).Nodup) (hmem : (id, inst) ∈ s.instances)
    (hP : P.instances = s.instances.map (fun q =>
      if q.1 == id then (q.1, { markUsed now q.2 with is_busy := true }) else q)) :
    findInst P id = some { markUsed now inst with is_busy := true } := by
  unfold findInst
  rw [hP, find?_map_keyfix _ _ _ (fun q => by
      by_cases hq : (q.1 == id) = true <;> simp [hq]),
    find?_eq_of_mem_nodup s.instances id inst hmem hnd]
  simp

lemma findInst_append_new {s P : PoolState} {cfg : String} {now : Nat}
    (hnot : ∀ inst, (s.nextId, inst) ∉ s.instances)
    (hP : P.instances = s.instances ++ [(s.nextId, newInstance cfg now)]) :
    findInst P s.nextId = some (newInstance cfg now) := by
  unfold findInst
  rw [hP, find?_append_of_fresh]
  · rfl
  · intro p hp hcontra
    have hp' : (p.1, p.2) ∈ s.instances := hp
    rw [hcontra] at hp'
    exact hnot p.2 hp'

lemma findInst_return_instance (P : PoolState) (id : Nat) :
    findInst (return_instance P id) id
      = (findInst P id).map (fun inst => { inst with is_busy := false }) := by
  unfold findInst return_instance
  rw [show (({ P with
        instances := P.instances.map (fun p =>
          if p.1 == id then (p.1, { p.2 with is_busy := false }) else p),
        availableQueue := P.availableQueue ++ [id] } : PoolState)).instances
      = P.instances.map (fun p =>
          if p.1 == id then (p.1, { p.2 with is_busy := false }) else p) from rfl]
  rw [find?_map_keyfix _ _ _ (fun q => by
    by_cases hq : (q.1 == id) = true <;> simp [hq])]
  cases hf : P.instances.find? (fun p => p.1 == id) with
  | none => rfl
  | some p =>
    have hkey : p.1 = id := by
      have := List.find?_some hf
      simpa using this
    simp [hkey]

lemma get_model_instance_fst (M : Nat) (path cfg : String) (ok : Bool)
    (now : Nat) (t : Int) (mgr : List (String × PoolState)) :
    (get_model_instance M path cfg ok now t mgr).1
      = (get_instance M cfg ok now t (poolFor mgr path)).1 := rfl

lemma get_model_instance_snd (M : Nat) (path cfg : String) (ok : Bool)
    (now : Nat) (t : Int) (mgr : List (String × PoolState)) :
    (get_model_instance M path cfg ok now t mgr).2
      = setPool mgr path (get_instance M cfg ok now t (poolFor mgr path)).2.1 := rfl

lemma generate_response_pools_some {M : Nat} {path cfg : String} {ok : Bool}
    {now : Nat} {t : Int} {exec : ExecOutcome} {s : LLMServiceState} {id : Nat}
    (hacq : (get_model_instance M path cfg ok now t s.pools).1 = some id) :
    (LLMService.generate_response M path cfg ok now t exec s).2.pools
      = return_model_instance
          (get_model_instance M path cfg ok now t s.pools).2 path id := by
  unfold LLMService.generate_response
  simp only [hacq]
  cases exec <;> rfl

/-- The final pool for `path` after a `generate_response` whose acquisition
succeeded: the acquired pool state after `return_instance`. -/
lemma generate_response_poolFor_some {M : Nat} {path cfg : String} {ok : Bool}
    {now : Nat} {t : Int} {exec : ExecOutcome} {s : LLMServiceState} {id : Nat}
    (hacq : (get_model_instance M path cfg ok now t s.pools).1 = some id) :
    poolFor (LLMService.generate_response M path cfg ok now t exec s).2.pools path
      = return_instance
          (get_instance M cfg ok now t (poolFor s.pools path)).2.1 id := by
  rw [generate_response_pools_some hacq, get_model_instance_snd]
  have hsome : ((setPool s.pools path
      (get_instance M cfg ok now t (poolFor s.pools path)).2.1).find?
        (fun p => p.1 == path)).isSome = true := by
    obtain ⟨q, hq, _⟩ := find?_setPool_eq s.pools path
      (get_instance M cfg ok now t (poolFor s.pools path)).2.1
    rw [hq]
    rfl
  rw [poolFor_return_model_instance _ _ _ hsome, poolFor_setPool]

/-! ## Claim theorems -/

/-- C1 (amended): for every operation sequence on a `ModelPool` with cap
`M`, `len(instances) ≤ M` always holds (any `M`); for the
`OptimizedModelPool`, `len(models) ≤ K` holds for every `K ≥ 1` (at
`K = 0` a single load leaves one resident model, see the counterexample). -/
theorem c1_cap_invariant :
    (∀ (M maxIdle : Nat) (ops : List PoolOp),
      (runPool M maxIdle ops initPool).instances.length ≤ M) ∧
    (∀ (K : Nat) (ops : List OptOp), 1 ≤ K →
      (runOpt K ops initOpt).models.length ≤ K) := by
  constructor
  · intro M maxIdle ops
    exact runPool_length_le M maxIdle ops initPool (by simp [initPool])
  · intro K ops hK
    exact runOpt_length_le K ops hK initOpt (by simp [initOpt])

/-- C1 counterexample: with `max_models = 0`, one `get_or_load_model` call
leaves one resident model, violating `len(cache.models) <= max_models`
(`_evict_lru_model` is a no-op on an empty dict, then the new model is
stored unconditionally). -/
theorem c1_cap_counterexample :
    ¬ ((runOpt 0 [OptOp.load "a" true 0] initOpt).models.length ≤ 0) := by
  decide

theorem c1_cap_invariant_witness :
    (runPool 2 300 [PoolOp.get "c" true 0 30, PoolOp.get "c" true 1 30]
      initPool).instances.length ≤ 2 ∧
    (1 ≤ 1 ∧
      (runOpt 1 [OptOp.load "a" true 0, OptOp.load "b" true 1]
        initOpt).models.length ≤ 1) :=
  ⟨c1_cap_invariant.1 2 300 _, by decide, c1_cap_invariant.2 1 _ (by decide)⟩

/-- C4: on a permanently saturated pool (count at cap, every resident
instance busy or fingerprint-mismatched), `get_instance(timeout=T)` with
`T > 0` returns `None`, and its elapsed time — `(10·T).toNat` polling
intervals of 0.1 s, i.e. exactly `T` seconds on the logical clock — is at
most `T` plus one 0.1-second interval (`10·T + 1` tenths). The loop is a
total function of its fuel, so it cannot hang. -/
theorem c4_timeout_fidelity (M : Nat) (cfg : String) (ok : Bool) (now : Nat)
    (T : Int) (s : PoolState) (hsat : Saturated M cfg s) (hT : 0 < T) :
    (get_instance M cfg ok now T s).1 = none ∧
    ((get_instance M cfg ok now T s).2.2 : Int) ≤ 10 * T + 1 := by
  have h := poolLoop_saturated M cfg ok now (10 * T).toNat s hsat
  unfold get_instance
  refine ⟨h.1, ?_⟩
  rw [h.2]
  omega

theorem c4_timeout_fidelity_witness :
    Saturated 1 "c"
      { instances := [(0, ⟨"c", 0, 0, 1, true⟩)], availableQueue := [],
        nextId := 1, totalRequests := 1, cacheHits := 0 } ∧
    (0 : Int) < 1 ∧
    ((get_instance 1 "c" true 7 1
        { instances := [(0, ⟨"c", 0, 0, 1, true⟩)], availableQueue := [],
          nextId := 1, totalRequests := 1, cacheHits := 0 }).1 = none ∧
      ((get_instance 1 "c" true 7 1
        { instances := [(0, ⟨"c", 0, 0, 1, true⟩)], availableQueue := [],
          nextId := 1, totalRequests := 1, cacheHits := 0 }).2.2 : Int)
        ≤ 10 * 1 + 1) :=
  ⟨⟨rfl, by decide⟩, by decide,
    c4_timeout_fidelity 1 "c" true 7 1 _ ⟨rfl, by decide⟩ (by decide)⟩

/-- C7: when the first `Llama(...)` attempt raises,
`_create_optimized_model` retries exactly once, with the fixed fallback
parameters (`n_gpu_layers = 0`, `n_ctx = 1024`, `n_batch = 128`,
`use_mlock = False`); the loader is invoked exactly twice (never a third
time), and if the retry also raises its error propagates. -/
theorem c7_single_safe_retry (loader : LlamaParams → Except String Nat)
    (fileSizeBytes : Nat) (o : LlamaOverrides) (e : String)
    (hfail : loader (mergeParams (defaultParamsFor fileSizeBytes) o)
      = .error e) :
    (create_optimized_model loader fileSizeBytes o).2
      = [mergeParams (defaultParamsFor fileSizeBytes) o, fallback_params] ∧
    fallback_params.n_gpu_layers = 0 ∧ fallback_params.n_ctx = 1024 ∧
    fallback_params.n_batch = 128 ∧ fallback_params.use_mlock = false ∧
    (∀ e2, loader fallback_params = .error e2 →
      (create_optimized_model loader fileSizeBytes o).1 = .error e2) ∧
    (∀ h2, loader fallback_params = .ok h2 →
      (create_optimized_model loader fileSizeBytes o).1 = .ok h2) := by
  simp only [create_optimized_model, hfail]
  cases hfb : loader fallback_params with
  | ok h2 =>
    refine ⟨rfl, rfl, rfl, rfl, rfl, ?_, ?_⟩
    · intro e2 he; cases he
    · intro h3 he; injection he with h4; rw [h4]
  | error e2 =>
    refine ⟨rfl, rfl, rfl, rfl, rfl, ?_, ?_⟩
    · intro e3 he; injection he with h4; rw [h4]
    · intro h3 he; cases he

theorem c7_single_safe_retry_witness :
    ((fun _ : LlamaParams => (Except.error "boom" : Except String Nat))
        (mergeParams (defaultParamsFor 1000) {}) = Except.error "boom") ∧
    ((create_optimized_model (fun _ => Except.error "boom") 1000 {}).2
        = [mergeParams (defaultParamsFor 1000) {}, fallback_params] ∧
      fallback_params.n_gpu_layers = 0 ∧ fallback_params.n_ctx = 1024 ∧
      fallback_params.n_batch = 128 ∧ fallback_params.use_mlock = false ∧
      (∀ e2, (fun _ : LlamaParams => (Except.error "boom" : Except String Nat))
          fallback_params = .error e2 →
        (create_optimized_model (fun _ => Except.error "boom") 1000 {}).1
          = .error e2) ∧
      (∀ h2, (fun _ : LlamaParams => (Except.error "boom" : Except String Nat))
          fallback_params = .ok h2 →
        (create_optimized_model (fun _ => Except.error "boom") 1000 {}).1
          = .ok h2)) :=
  ⟨rfl, c7_single_safe_retry (fun _ => Except.error "boom") 1000 {} "boom" rfl⟩

/-- C8 (amended): `OptimizedLLMService.clear_cache` empties the model pool
and resets all statistics counters to their initial zero values;
`LLMService.clear_cache` drops every pool (zero resident instances) but
leaves `_generation_stats` unchanged — it does not reset statistics. -/
theorem c8_clear_cache_behavior :
    (∀ s : LLMServiceState,
      (LLMService.clear_cache s).pools = [] ∧
      (LLMService.clear_cache s).gen_stats = s.gen_stats) ∧
    (∀ u : OptServiceState,
      (OptimizedLLMService.clear_cache u).model_pool.models = [] ∧
      (OptimizedLLMService.clear_cache u).gen_stats = initOptGenStats) :=
  ⟨fun _ => ⟨rfl, rfl⟩, fun _ => ⟨rfl, rfl⟩⟩

/-- C8 counterexample: after `LLMService.clear_cache` on a service with one
recorded request, `total_requests` is still 1, not the zero the claim
requires of both variants. -/
theorem c8_clear_cache_counterexample :
    (LLMService.clear_cache
      { pools := [],
        gen_stats := { total_requests := 1,
                       successful_requests := 0,
                       failed_requests := 0,
                       concurrent_requests := 0 } }).gen_stats.total_requests
      ≠ 0 := by
  decide

/-- C9: `get_instance` with `timeout ≤ 0` returns `None` immediately (zero
elapsed polling intervals) and leaves the pool state untouched — no reuse
and no creation even when an idle match exists or the pool is under its cap
— because `while time.time() - start_time < timeout` admits no iteration. -/
theorem c9_nonpositive_timeout (M : Nat) (cfg : String) (ok : Bool)
    (now : Nat) (t : Int) (s : PoolState) (ht : t ≤ 0) :
    get_instance M cfg ok now t s = (none, s, 0) := by
  unfold get_instance
  have h0 : (10 * t).toNat = 0 := by omega
  rw [h0]
  rfl

theorem c9_nonpositive_timeout_witness :
    (0 : Int) ≤ 0 ∧ get_instance 1 "c" true 5 0 initPool = (none, initPool, 0) :=
  ⟨le_refl 0, c9_nonpositive_timeout 1 "c" true 5 0 initPool (le_refl 0)⟩

/-- C10: a queue-full `submit_request` rejection returns the re-raised
error, increments `failed_requests` by one, and leaves everything else
(`total_requests`, `queued_requests`, the queue itself) unchanged; hence
repeated rejections can drive `failed_requests` above `total_requests`
(five submissions at `max_concurrent = 1` end with failed 3 > total 2). -/
theorem c10_queue_full_rejection (mc : Nat) (id : String) (s : CMState)
    (hfull : 2 * mc ≤ s.queue.length) :
    (submit_request mc id s).1 = Except.error "queue full" ∧
    (submit_request mc id s).2
      = { s with failed_requests := s.failed_requests + 1 } ∧
    (submit_request mc id s).2.total_requests = s.total_requests ∧
    (submit_request mc id s).2.queued_requests = s.queued_requests ∧
    (submit_request mc id s).2.failed_requests = s.failed_requests + 1 ∧
    ((["a", "b", "c", "d", "e"].foldl
        (fun st i => (submit_request 1 i st).2) initCM).total_requests
      < (["a", "b", "c", "d", "e"].foldl
        (fun st i => (submit_request 1 i st).2) initCM).failed_requests) := by
  have hn : ¬ s.queue.length < 2 * mc := by omega
  unfold submit_request
  rw [if_neg hn]
  exact ⟨rfl, rfl, rfl, rfl, rfl, by decide⟩

theorem c10_queue_full_rejection_witness :
    2 * 0 ≤ initCM.queue.length ∧
    ((submit_request 0 "x" initCM).1 = Except.error "queue full" ∧
      (submit_request 0 "x" initCM).2
        = { initCM with failed_requests := initCM.failed_requests + 1 } ∧
      (submit_request 0 "x" initCM).2.total_requests = initCM.total_requests ∧
      (submit_request 0 "x" initCM).2.queued_requests = initCM.queued_requests ∧
      (submit_request 0 "x" initCM).2.failed_requests
        = initCM.failed_requests + 1 ∧
      ((["a", "b", "c", "d", "e"].foldl
          (fun st i => (submit_request 1 i st).2) initCM).total_requests
        < (["a", "b", "c", "d", "e"].foldl
          (fun st i => (submit_request 1 i st).2) initCM).failed_requests)) :=
  ⟨by decide, c10_queue_full_rejection 0 "x" initCM (by decide)⟩

/-- C3: when `get_or_load_model` is called with a non-resident path and the
cache holds exactly `max_models` entries (`K ≥ 1`), the entry
`_evict_lru_model` removes is resident and has the minimal `last_used`
among ALL resident paths; the new state is the old dict minus that path
plus the new model; and when the access times are pairwise distinct the
evicted entry is the unique minimum (hence, for a capacity-`N` cache fed
`N+1` distinct paths with distinct access times, the evicted path is the
one with the smallest `last_used` at eviction time). -/
theorem c3_lru_eviction (K : Nat) (path : String) (now : Nat) (s : OptState)
    (habsent : s.models.find? (fun p => p.1 == path) = none)
    (hlen : s.models.length = K) (hK : 0 < K) :
    ∃ lru : String × OptInstance,
      lruEntry s = some lru ∧ lru ∈ s.models ∧
      (∀ q ∈ s.models, lru.2.last_used ≤ q.2.last_used) ∧
      (get_or_load_model K path true now s).2.models
        = s.models.filter (fun p => !(p.1 == lru.1)) ++ [(path, ⟨0, now⟩)] ∧
      (s.models.Pairwise (fun a b => a.2.last_used ≠ b.2.last_used) →
        ∀ q ∈ s.models, q.2.last_used ≤ lru.2.last_used → q = lru) := by
  have hne : s.models ≠ [] := by
    intro h0
    rw [h0] at hlen
    simp at hlen
    omega
  obtain ⟨lru, hlru⟩ := lruEntry_isSome_of_ne hne
  refine ⟨lru, hlru, lruEntry_mem hlru, lruEntry_min hlru, ?_, ?_⟩
  · rw [get_or_load_model_absent habsent,
      if_pos rfl, if_pos (by omega : K ≤ s.models.length)]
    simp only [evict_lru_model, hlru]
  · intro hdist q hq hle
    by_contra hqne
    have h1 := lruEntry_min hlru q hq
    have heq : q.2.last_used = lru.2.last_used := le_antisymm hle h1
    have hsymm : Symmetric (fun a b : String × OptInstance =>
        a.2.last_used ≠ b.2.last_used) := fun a b h => h.symm
    exact List.Pairwise.forall hsymm hdist hq (lruEntry_mem hlru) hqne heq

theorem c3_lru_eviction_witness :
    (({ models := [("A", ⟨0, 0⟩), ("B", ⟨0, 1⟩)] } : OptState).models.find?
        (fun p => p.1 == "C") = none ∧
      ({ models := [("A", ⟨0, 0⟩), ("B", ⟨0, 1⟩)] } : OptState).models.length = 2 ∧
      0 < 2) ∧
    (∃ lru : String × OptInstance,
      lruEntry { models := [("A", ⟨0, 0⟩), ("B", ⟨0, 1⟩)] } = some lru ∧
      lru ∈ ({ models := [("A", ⟨0, 0⟩), ("B", ⟨0, 1⟩)] } : OptState).models ∧
      (∀ q ∈ ({ models := [("A", ⟨0, 0⟩), ("B", ⟨0, 1⟩)] } : OptState).models,
        lru.2.last_used ≤ q.2.last_used) ∧
      (get_or_load_model 2 "C" true 2
          { models := [("A", ⟨0, 0⟩), ("B", ⟨0, 1⟩)] }).2.models
        = ({ models := [("A", ⟨0, 0⟩), ("B", ⟨0, 1⟩)] } : OptState).models.filter
            (fun p => !(p.1 == lru.1)) ++ [("C", ⟨0, 2⟩)] ∧
      (({ models := [("A", ⟨0, 0⟩), ("B", ⟨0, 1⟩)] } : OptState).models.Pairwise
          (fun a b => a.2.last_used ≠ b.2.last_used) →
        ∀ q ∈ ({ models := [("A", ⟨0, 0⟩), ("B", ⟨0, 1⟩)] } : OptState).models,
          q.2.last_used ≤ lru.2.last_used → q = lru)) :=
  ⟨⟨by decide, by decide, by decide⟩,
    c3_lru_eviction 2 "C" 2 { models := [("A", ⟨0, 0⟩), ("B", ⟨0, 1⟩)] }
      (by decide) (by decide) (by decide)⟩

/-- C6 counterexample: on a manager whose table holds the completed task
`t1`, the first `wait_for_result` delivers the result, but the second
`wait_for_result` for the same id raises `TimeoutError` after polling out
its window — it does not get a `not_found` outcome (that status comes only
from `get_request_status`). -/
theorem c6_not_found_counterexample :
    (wait_for_result "t1" 5
      { initCM with active := [("t1", TaskStatus.completed "r")] }).1
      = WaitOutcome.result "r" ∧
    (wait_for_result "t1" 5
      (wait_for_result "t1" 5
        { initCM with active := [("t1", TaskStatus.completed "r")] }).2).1
      = WaitOutcome.timedOut ∧
    (wait_for_result "t1" 5
      (wait_for_result "t1" 5
        { initCM with active := [("t1", TaskStatus.completed "r")] }).2).1
      ≠ WaitOutcome.notFound := by
  decide

/-- C6 (amended): once a task is terminal (`completed`), the first
`wait_for_result` (with a positive timeout) returns its result exactly once
and deletes the entry from the active-request table; a second
`wait_for_result` for the same id finds no entry and, after its polling
window closes, times out with `TimeoutError` (not a second delivery);
`get_request_status` is what reports `"not_found"` for that id. -/
theorem c6_single_delivery (id idk r : String) (t1 t2 : Int) (s : CMState)
    (hfind : s.active.find? (fun p => p.1 == id)
      = some (idk, TaskStatus.completed r))
    (ht1 : 0 < t1) :
    (wait_for_result id t1 s).1 = WaitOutcome.result r ∧
    ((wait_for_result id t1 s).2.active.find? (fun p => p.1 == id) = none) ∧
    (wait_for_result id t2 (wait_for_result id t1 s).2).1
      = WaitOutcome.timedOut ∧
    get_request_status id (wait_for_result id t1 s).2 = "not_found" := by
  obtain ⟨n, hn⟩ : ∃ n, (10 * t1).toNat = n + 1 :=
    ⟨(10 * t1).toNat - 1, by omega⟩
  have h1 : wait_for_result id t1 s
      = (WaitOutcome.result r,
         { s with active := s.active.filter (fun p => !(p.1 == id)) }) := by
    unfold wait_for_result
    rw [hn]
    simp only [waitLoop, hfind]
  rw [h1]
  have h2 : ({ s with active := s.active.filter (fun p => !(p.1 == id)) }
      : CMState).active.find? (fun p => p.1 == id) = none :=
    find?_filter_not_key _ _
  refine ⟨rfl, h2, ?_, ?_⟩
  · exact waitLoop_absent id _ _ h2
  · unfold get_request_status
    rw [h2]

theorem c6_single_delivery_witness :
    (({ initCM with active := [("t1", TaskStatus.completed "ok")] }
        : CMState).active.find? (fun p => p.1 == "t1")
      = some ("t1", TaskStatus.completed "ok") ∧ (0 : Int) < 1) ∧
    ((wait_for_result "t1" 1
        { initCM with active := [("t1", TaskStatus.completed "ok")] }).1
      = WaitOutcome.result "ok" ∧
    ((wait_for_result "t1" 1
        { initCM with active := [("t1", TaskStatus.completed "ok")] }).2.active.find?
          (fun p => p.1 == "t1") = none) ∧
    (wait_for_result "t1" 1
      (wait_for_result "t1" 1
        { initCM with active := [("t1", TaskStatus.completed "ok")] }).2).1
      = WaitOutcome.timedOut ∧
    get_request_status "t1"
      (wait_for_result "t1" 1
        { initCM with active := [("t1", TaskStatus.completed "ok")] }).2
      = "not_found") :=
  ⟨⟨by decide, by decide⟩,
    c6_single_delivery "t1" "t1" "ok" 1 1
      { initCM with active := [("t1", TaskStatus.completed "ok")] }
      (by decide) (by decide)⟩
/-- C2: a `get_instance` acquisition from a well-formed pool that hands out
a previously created instance does so only when that instance's
`config_hash` equals the requested fingerprint and its `is_busy` flag is
false; the reuse marks it busy, bumps its usage counter, and increments
both `cache_hits` and `total_requests` by one, while an acquisition that
creates a new instance increments only `total_requests`; consequently a
cap-1 pool serving two requests with identical fingerprints (create,
release, reuse) ends with `cache_hits = 1` and `total_requests = 2`. -/
theorem c2_reuse_semantics :
    (∀ (M : Nat) (cfg : String) (ok : Bool) (now : Nat) (t : Int)
        (s : PoolState) (id : Nat) (inst : MPInstance),
      PoolWF s →
      (get_instance M cfg ok now t s).1 = some id →
      (id, inst) ∈ s.instances →
      inst.config_hash = cfg ∧ inst.is_busy = false ∧
      findInst (get_instance M cfg ok now t s).2.1 id
        = some { markUsed now inst with is_busy := true } ∧
      (get_instance M cfg ok now t s).2.1.cacheHits = s.cacheHits + 1 ∧
      (get_instance M cfg ok now t s).2.1.totalRequests
        = s.totalRequests + 1) ∧
    (∀ (M : Nat) (cfg : String) (ok : Bool) (now : Nat) (t : Int)
        (s : PoolState) (id : Nat),
      PoolWF s →
      (get_instance M cfg ok now t s).1 = some id →
      (∀ inst, (id, inst) ∉ s.instances) →
      (get_instance M cfg ok now t s).2.1.cacheHits = s.cacheHits ∧
      (get_instance M cfg ok now t s).2.1.totalRequests
        = s.totalRequests + 1) ∧
    ((get_instance 1 "c" true 5 30 initPool).1 = some 0 ∧
      (get_instance 1 "c" true 6 30
        (return_instance (get_instance 1 "c" true 5 30 initPool).2.1 0)).1
        = some 0 ∧
      (get_instance 1 "c" true 6 30
        (return_instance (get_instance 1 "c" true 5 30 initPool).2.1 0)).2.1.cacheHits
        = 1 ∧
      (get_instance 1 "c" true 6 30
        (return_instance (get_instance 1 "c" true 5 30 initPool).2.1 0)).2.1.totalRequests
        = 2) := by
  refine ⟨?_, ?_, by decide⟩
  · intro M cfg ok now t s id inst hwf hres hmem
    rcases get_instance_some_spec hwf hres with
      ⟨inst2, hmem2, hhash, hbusy, hinst, hch, htr⟩ | ⟨hid, hnot, _, _, _, _⟩
    · have hii : inst2 = inst := mem_keys_nodup_eq hwf.2 hmem2 hmem
      subst hii
      exact ⟨hhash, hbusy, findInst_map_markBusy hwf.2 hmem2 hinst, hch, htr⟩
    · exact absurd hmem (hnot inst)
  · intro M cfg ok now t s id hwf hres hnone
    rcases get_instance_some_spec hwf hres with
      ⟨inst2, hmem2, _, _, _, _, _⟩ | ⟨hid, hnot, _, _, hch, htr⟩
    · exact absurd hmem2 (hnone inst2)
    · exact ⟨hch, htr⟩

theorem c2_reuse_semantics_witness :
    (PoolWF (return_instance (get_instance 1 "c" true 5 30 initPool).2.1 0) ∧
      (get_instance 1 "c" true 6 30
        (return_instance (get_instance 1 "c" true 5 30 initPool).2.1 0)).1
        = some 0 ∧
      (0, (⟨"c", 5, 5, 0, false⟩ : MPInstance)) ∈
        (return_instance (get_instance 1 "c" true 5 30 initPool).2.1 0).instances) ∧
    ((⟨"c", 5, 5, 0, false⟩ : MPInstance).config_hash = "c" ∧
      (⟨"c", 5, 5, 0, false⟩ : MPInstance).is_busy = false ∧
      findInst (get_instance 1 "c" true 6 30
        (return_instance (get_instance 1 "c" true 5 30 initPool).2.1 0)).2.1 0
        = some { markUsed 6 (⟨"c", 5, 5, 0, false⟩ : MPInstance) with
            is_busy := true } ∧
      (get_instance 1 "c" true 6 30
        (return_instance (get_instance 1 "c" true 5 30 initPool).2.1 0)).2.1.cacheHits
        = (return_instance (get_instance 1 "c" true 5 30 initPool).2.1 0).cacheHits
          + 1 ∧
      (get_instance 1 "c" true 6 30
        (return_instance (get_instance 1 "c" true 5 30 initPool).2.1 0)).2.1.totalRequests
        = (return_instance (get_instance 1 "c" true 5 30 initPool).2.1 0).totalRequests
          + 1) :=
  ⟨⟨⟨by decide, by decide⟩, by decide, by decide⟩,
    c2_reuse_semantics.1 1 "c" true 6 30
      (return_instance (get_instance 1 "c" true 5 30 initPool).2.1 0) 0
      ⟨"c", 5, 5, 0, false⟩ ⟨by decide, by decide⟩ (by decide) (by decide)⟩

/-- C5 counterexample: the very first successful `generate_response` on a
fresh `LLMService` acquires its instance by creating one, so the pool's
instance count changes from 0 to 1 across that request/response cycle —
the claim's "instance count is unchanged" fails for creating acquisitions
(the busy flag is still cleared, see the amended theorem). -/
theorem c5_count_counterexample :
    (get_model_instance 3 "m" "c" true 0 1 initLLMService.pools).1 = some 0 ∧
    (poolFor initLLMService.pools "m").instances.length = 0 ∧
    (poolFor (LLMService.generate_response 3 "m" "c" true 0 1
        ExecOutcome.success initLLMService).2.pools "m").instances.length = 1 := by
  decide

/-- C5 (amended): whenever `generate_response` successfully acquires an
instance, on every execution outcome (success or inference exception) the
instance is returned to its pool: afterwards its `is_busy` flag is false,
and the pool's instance count equals the count right after acquisition — so
it is unchanged across the cycle when the acquisition reused an instance,
and one higher when the acquisition had to create the instance. -/
theorem c5_release_on_all_paths (M : Nat) (path cfg : String) (ok : Bool)
    (now : Nat) (t : Int) (exec : ExecOutcome) (s : LLMServiceState) (id : Nat)
    (hwf : PoolWF (poolFor s.pools path))
    (hacq : (get_model_instance M path cfg ok now t s.pools).1 = some id) :
    (∃ inst, findInst (poolFor
        (LLMService.generate_response M path cfg ok now t exec s).2.pools path) id
        = some inst ∧ inst.is_busy = false) ∧
    (poolFor (LLMService.generate_response M path cfg ok now t exec
        s).2.pools path).instances.length
      = (poolFor (get_model_instance M path cfg ok now t
          s.pools).2 path).instances.length ∧
    ((∃ inst, (id, inst) ∈ (poolFor s.pools path).instances) →
      (poolFor (LLMService.generate_response M path cfg ok now t exec
          s).2.pools path).instances.length
        = (poolFor s.pools path).instances.length) ∧
    ((∀ inst, (id, inst) ∉ (poolFor s.pools path).instances) →
      (poolFor (LLMService.generate_response M path cfg ok now t exec
          s).2.pools path).instances.length
        = (poolFor s.pools path).instances.length + 1) := by
  have hacq' : (get_instance M cfg ok now t (poolFor s.pools path)).1
      = some id := hacq
  have hfin : poolFor
      (LLMService.generate_response M path cfg ok now t exec s).2.pools path
      = return_instance
          (get_instance M cfg ok now t (poolFor s.pools path)).2.1 id :=
    @generate_response_poolFor_some M path cfg ok now t exec s id hacq
  have hlen2 : (poolFor (get_model_instance M path cfg ok now t
      s.pools).2 path).instances.length
      = (get_instance M cfg ok now t
          (poolFor s.pools path)).2.1.instances.length := by
    rw [get_model_instance_snd, poolFor_setPool]
  have hret : (return_instance
      (get_instance M cfg ok now t (poolFor s.pools path)).2.1 id).instances.length
      = (get_instance M cfg ok now t
          (poolFor s.pools path)).2.1.instances.length := by
    simp [return_instance]
  rcases get_instance_some_spec hwf hacq' with
    ⟨inst, hmem, hhash, hbusy, hinst, hch, htr⟩ |
    ⟨hid, hnot, hlenM, hinst, hch, htr⟩
  · have hfi : findInst
        (get_instance M cfg ok now t (poolFor s.pools path)).2.1 id
        = some { markUsed now inst with is_busy := true } :=
      findInst_map_markBusy hwf.2 hmem hinst
    refine ⟨⟨{ markUsed now inst with is_busy := false }, ?_, rfl⟩, ?_, ?_, ?_⟩
    · rw [hfin, findInst_return_instance, hfi]
      rfl
    · rw [hfin, hret, hlen2]
    · intro _
      rw [hfin, hret, hinst, List.length_map]
    · intro hnone
      exact absurd hmem (hnone inst)
  · subst hid
    have hfi : findInst
        (get_instance M cfg ok now t (poolFor s.pools path)).2.1
          (poolFor s.pools path).nextId
        = some (newInstance cfg now) :=
      findInst_append_new hnot hinst
    refine ⟨⟨{ newInstance cfg now with is_busy := false }, ?_, rfl⟩, ?_, ?_, ?_⟩
    · rw [hfin, findInst_return_instance, hfi]
      rfl
    · rw [hfin, hret, hlen2]
    · intro hexist
      obtain ⟨inst, hmem⟩ := hexist
      exact absurd hmem (hnot inst)
    · intro _
      rw [hfin, hret, hinst, List.length_append]
      rfl

theorem c5_release_on_all_paths_witness :
    (PoolWF (poolFor initLLMService.pools "m") ∧
      (get_model_instance 3 "m" "c" true 0 1 initLLMService.pools).1
        = some 0) ∧
    ((∃ inst, findInst (poolFor (LLMService.generate_response 3 "m" "c" true 0 1
        ExecOutcome.success initLLMService).2.pools "m") 0
        = some inst ∧ inst.is_busy = false) ∧
    (poolFor (LLMService.generate_response 3 "m" "c" true 0 1
        ExecOutcome.success initLLMService).2.pools "m").instances.length
      = (poolFor (get_model_instance 3 "m" "c" true 0 1
          initLLMService.pools).2 "m").instances.length ∧
    ((∃ inst, (0, inst) ∈ (poolFor initLLMService.pools "m").instances) →
      (poolFor (LLMService.generate_response 3 "m" "c" true 0 1
          ExecOutcome.success initLLMService).2.pools "m").instances.length
        = (poolFor initLLMService.pools "m").instances.length) ∧
    ((∀ inst, (0, inst) ∉ (poolFor initLLMService.pools "m").instances) →
      (poolFor (LLMService.generate_response 3 "m" "c" true 0 1
          ExecOutcome.success initLLMService).2.pools "m").instances.length
        = (poolFor initLLMService.pools "m").instances.length + 1)) :=
  ⟨⟨⟨by decide, by decide⟩, by decide⟩,
    c5_release_on_all_paths 3 "m" "c" true 0 1 ExecOutcome.success
      initLLMService 0 ⟨by decide, by decide⟩ (by decide)⟩

end LLMPlatform
